import Mathlib

/-!
Verification of `obsidian-utils` (files `generate_arxiv_md.py`,
`generate_openreview_md.py`, `generate_md.py`).

Strings are modelled as `List Char`.  Python string operations used by the
source (`str.split`, `str.strip`, `str.lower`, `str.find`, `str.rfind`,
slicing, `' '.join`, `in`, `replace`) are embedded below.  Character classes
(`\d`, `\w`, whitespace) are modelled on the ASCII fragment, which covers
every identifier and template string the program manipulates; Python's `re`
is Unicode-aware, so non-ASCII inputs are outside the model.

Python regular-expression semantics embedded here: `re.compile(r'^pat$')`
used via `.match(s)` succeeds iff `pat` matches the whole string, or the
whole string minus a single trailing newline (`$` matches at the end of the
string or just before a newline at the end of the string).
-/

namespace ObsUtils

/-- Strings as lists of characters. -/
abbrev Str := List Char

/-- Shorthand turning a Lean string literal into the `List Char` model. -/
def lit (s : String) : Str := s.data

/-- ASCII decimal digit, the model of `\d`. -/
def isDigitCh (c : Char) : Bool := '0' ≤ c && c ≤ '9'

/-- ASCII word character, the model of `\w`. -/
def isWordCh (c : Char) : Bool :=
  isDigitCh c || ('a' ≤ c && c ≤ 'z') || ('A' ≤ c && c ≤ 'Z') || c = '_'

/-- ASCII whitespace, the model of Python `str.split()` / `str.strip()`
whitespace (space, tab, newline, carriage return, vertical tab, form feed). -/
def isSpaceCh (c : Char) : Bool :=
  c = ' ' || c = '\t' || c = '\n' || c = '\r' ||
  c = Char.ofNat 11 || c = Char.ofNat 12

/-- ASCII lower-casing of one character, the model of Python `str.lower`
on the ASCII fragment. -/
def toLowerCh : Char → Char
  | 'A' => 'a' | 'B' => 'b' | 'C' => 'c' | 'D' => 'd' | 'E' => 'e'
  | 'F' => 'f' | 'G' => 'g' | 'H' => 'h' | 'I' => 'i' | 'J' => 'j'
  | 'K' => 'k' | 'L' => 'l' | 'M' => 'm' | 'N' => 'n' | 'O' => 'o'
  | 'P' => 'p' | 'Q' => 'q' | 'R' => 'r' | 'S' => 's' | 'T' => 't'
  | 'U' => 'u' | 'V' => 'v' | 'W' => 'w' | 'X' => 'x' | 'Y' => 'y'
  | 'Z' => 'z' | c => c

/-- Python `s.lower()` (ASCII fragment). -/
def pyLower (s : Str) : Str := s.map toLowerCh

/-- Python `s.strip()`: remove leading and trailing whitespace. -/
def pyStrip (s : Str) : Str :=
  ((s.dropWhile isSpaceCh).reverse.dropWhile isSpaceCh).reverse

/-- Worker for `pySplit`: `acc` is the current word, reversed. -/
def pySplitAux : Str → Str → List Str
  | acc, [] => if acc.isEmpty then [] else [acc.reverse]
  | acc, c :: t =>
    if isSpaceCh c then
      if acc.isEmpty then pySplitAux [] t else acc.reverse :: pySplitAux [] t
    else
      pySplitAux (c :: acc) t

/-- Python `s.split()` (no argument): split on runs of whitespace,
discarding empty pieces. -/
def pySplit (s : Str) : List Str := pySplitAux [] s

/-- Python `sep.join(pieces)`. -/
def joinSep (sep : Str) : List Str → Str
  | [] => []
  | [w] => w
  | w :: ws => w ++ sep ++ joinSep sep ws

/-- Python `' '.join(s.split())`: collapse whitespace runs, trimming the
ends (used on titles and abstracts before rendering). -/
def collapseWS (s : Str) : Str := joinSep [' '] (pySplit s)

/-- Python `c in s` for a single character `c`. -/
def containsCh (c : Char) (s : Str) : Bool := s.any (· == c)

/-- Python `s.replace(c, '')` for a single character: drop every
occurrence of `c`. -/
def removeAllCh (c : Char) (s : Str) : Str := s.filter (fun x => !(x == c))

/-- First index at which `needle` occurs in `hay`, if any. -/
def findSubAux (needle : Str) : Str → Nat → Option Nat
  | hay, i =>
    if needle.isPrefixOf hay then some i
    else
      match hay with
      | [] => none
      | _ :: t => findSubAux needle t (i + 1)

/-- Python `hay.find(needle)`: first index of occurrence, `-1` if absent. -/
def pyFind (needle hay : Str) : Int :=
  match findSubAux needle hay 0 with
  | some i => (i : Int)
  | none => -1

/-- Whether `needle` occurs in `hay` as a contiguous substring. -/
def hasSubstr (needle hay : Str) : Bool := (findSubAux needle hay 0).isSome

/-- Python `s.rfind(c)` for a single character: last index of occurrence,
`-1` if absent. -/
def pyRfindCh (c : Char) (s : Str) : Int :=
  match findSubAux [c] s.reverse 0 with
  | some i => (s.length : Int) - 1 - (i : Int)
  | none => -1

/-- Python slice `s[:k]` for an `Int` bound `k`: a negative bound counts
from the end of the string. -/
def pySliceTo (s : Str) (k : Int) : Str :=
  if 0 ≤ k then s.take k.toNat else s.take (s.length - (-k).toNat)

/-- Python slice `s[k:]` for a non-negative bound. -/
def pyDropFrom (s : Str) (k : Nat) : Str := s.drop k

/-- Split a string at every occurrence of the character `c`
(Python `s.split('\n')` semantics: `splitCh c [] = [[]]`). -/
def splitCh (c : Char) : Str → List Str
  | [] => [[]]
  | x :: t =>
    let r := splitCh c t
    if x = c then [] :: r
    else
      match r with
      | h :: t' => (x :: h) :: t'
      | [] => [[x]]

/-- Join a list of lines with newline characters. -/
def joinNL : List Str → Str
  | [] => []
  | [l] => l
  | l :: ls => l ++ '\n' :: joinNL ls

/-- The extra way `$` can succeed in Python: the pattern matches everything
but a single newline that ends the string. -/
def dollarTail (full : Str → Bool) (s : Str) : Bool :=
  match s.getLast? with
  | some c => c == '\n' && full s.dropLast
  | none => false

/-- Semantics of `bool(re.compile(r'^pat$').match(s))` in Python, given the
full-string matcher `full` for `pat`. -/
def dollarMatch (full : Str → Bool) (s : Str) : Bool :=
  full s || dollarTail full s

end ObsUtils

namespace ObsUtils.Arxiv

/-- `(v\d+)?$`-tail of both arXiv patterns: empty, or `v` followed by at
least one digit. -/
def versionOk : Str → Bool
  | [] => true
  | 'v' :: ds => !ds.isEmpty && ds.all isDigitCh
  | _ => false

/-- Full-string matcher of `NEW_STYLE = r'^\d{4}\.\d{4,}(v\d+)?$'`
(`generate_arxiv_md.py` line 18). -/
def newStyleFull (s : Str) : Bool :=
  match s with
  | a :: b :: c :: d :: '.' :: rest =>
    isDigitCh a && isDigitCh b && isDigitCh c && isDigitCh d &&
      (let ds := rest.takeWhile isDigitCh
       decide (4 ≤ ds.length) && versionOk (rest.drop ds.length))
  | _ => false

/-- Subject areas of `OLD_STYLE` that carry no sub-category list. -/
def bareAreas : List Str :=
  [lit "math-ph", lit "hep-ph", lit "nucl-ex", lit "nucl-th", lit "gr-qc",
   lit "astro-ph", lit "hep-lat", lit "quant-ph", lit "hep-ex", lit "hep-th"]

/-- An area with its optional sub-categories expands to the area itself and
`area.sub` for each listed sub-category. -/
def withSubs (area : String) (subs : List String) : List Str :=
  lit area :: subs.map (fun sub => lit area ++ '.' :: lit sub)

/-- Every string the group part of `OLD_STYLE` (lines 19-49) can match,
transliterated alternative by alternative. -/
def oldAlternatives : List Str :=
  bareAreas ++
  withSubs "stat" ["AP", "CO", "ML", "ME", "TH"] ++
  withSubs "q-bio" ["BM", "CB", "GN", "MN", "NC", "OT", "PE", "QM", "SC", "TO"] ++
  withSubs "cond-mat"
    ["dis-nn", "mes-hall", "mtrl-sci", "other", "soft", "stat-mech",
     "str-el", "supr-con"] ++
  withSubs "cs"
    ["AR", "AI", "CL", "CC", "CE", "CG", "GT", "CV", "CY", "CR", "DS", "DB",
     "DL", "DM", "DC", "GL", "GR", "HC", "IR", "IT", "LG", "LO", "MS", "MA",
     "MM", "NI", "NE", "NA", "OS", "OH", "PF", "PL", "RO", "SE", "SD", "SC"] ++
  withSubs "nlin" ["AO", "CG", "CD", "SI", "PS"] ++
  withSubs "physics"
    ["acc-ph", "ao-ph", "atom-ph", "atm-clus", "bio-ph", "chem-ph",
     "class-ph", "comp-ph", "data-an", "flu-dyn", "gen-ph", "geo-ph",
     "hist-ph", "ins-det", "med-ph", "optics", "ed-ph", "soc-ph",
     "plasm-ph", "pop-ph", "space-ph"] ++
  withSubs "math"
    ["AG", "AT", "AP", "CT", "CA", "CO", "AC", "CV", "DG", "DS", "FA", "GM",
     "GN", "GT", "GR", "HO", "IT", "KT", "LO", "MP", "MG", "NT", "NA", "OA",
     "OC", "PR", "QA", "RT", "RA", "SP", "ST", "SG"]

/-- `/\d{7}(v\d+)?$`-tail of `OLD_STYLE`: a slash, exactly seven digits,
optional version. -/
def oldTail (t : Str) : Bool :=
  match t with
  | '/' :: rest =>
    (rest.take 7).all isDigitCh && decide (7 ≤ rest.length) &&
      versionOk (rest.drop 7)
  | _ => false

/-- Full-string matcher of `OLD_STYLE` (lines 19-49). -/
def oldStyleFull (s : Str) : Bool :=
  oldAlternatives.any (fun p => p.isPrefixOf s && oldTail (s.drop p.length))

/-- `is_valid` (`generate_arxiv_md.py` lines 52-54):
`bool(NEW_STYLE.match(arxiv_id)) or bool(OLD_STYLE.match(arxiv_id))`. -/
def is_valid (s : Str) : Bool :=
  dollarMatch newStyleFull s || dollarMatch oldStyleFull s

/-- The spec's reading of `is_valid`: the string itself fully matches one
of the two alternatives, anchored at both ends. -/
def specFullValid (s : Str) : Bool := newStyleFull s || oldStyleFull s

end ObsUtils.Arxiv

namespace ObsUtils.Arxiv

/-- One Atom `entry` element, as `Reference.__init__` reads it.  Each simple
field is `Option (Option Str)`: the outer option is whether the element is
present (`xml.find` returning `None`), the inner one whether it carries
text (`.text` being `None`).  `primaryCategoryTerm` likewise: element
present, `term` attribute present.  `authorNames` lists the `author/name`
elements in order, each with its optional text. -/
structure Entry where
  idField : Option (Option Str)
  titleField : Option (Option Str)
  summaryField : Option (Option Str)
  publishedField : Option (Option Str)
  updatedField : Option (Option Str)
  journalRefField : Option (Option Str)
  doiField : Option (Option Str)
  primaryCategoryTerm : Option (Option Str)
  authorNames : List (Option Str)
  deriving DecidableEq, Repr

/-- `Reference._field_text` (lines 80-85): `find(...).text.strip()`, with
every exception (absent element, absent text) turned into `""`. -/
def fieldText (f : Option (Option Str)) : Str :=
  match f with
  | some (some t) => pyStrip t
  | _ => []

/-- `Reference._category` (lines 87-92): the `term` attribute of
`primary_category`, `""` on any failure.  Note: no `.strip()` here. -/
def categoryOf (e : Entry) : Str :=
  match e.primaryCategoryTerm with
  | some (some t) => t
  | _ => []

/-- The slice `id_url[id_url.find('/abs/') + 5:]` of `Reference._id`
(lines 94-100).  When the substring is absent, `find` yields `-1` and the
slice starts at `-1 + 5 = 4`. -/
def extractIdFromUrl (idUrl : Str) : Str :=
  pyDropFrom idUrl (pyFind (lit "/abs/") idUrl + 5).toNat

/-- `Reference._published` (lines 102-108): `("", "")` when the published
string is shorter than 7 characters, else `(s[:4], s[5:7])`. -/
def publishedOf (published : Str) : Str × Str :=
  if published.length < 7 then ([], [])
  else (published.take 4, (published.drop 5).take 2)

/-- The fields `Reference.__init__` (lines 56-73) stores. -/
structure Reference where
  url : Str
  id : Str
  authors : List (Option Str)
  title : Str
  summary : Str
  category : Str
  year : Str
  month : Str
  pub_date : Str
  updated : Str
  bare_id : Str
  note : Str
  doi : Str
  deriving DecidableEq, Repr

/-- `Reference.__init__` (lines 56-73).  Field extraction cannot raise (all
extractors above are total); the only failure is the explicit
`raise Exception("No such publication")` when the id, the author list, or
the title is empty.  `bare_id` is `self.id[:self.id.rfind('v')]`. -/
def mkReference (e : Entry) : Except Str Reference :=
  let url := fieldText e.idField
  let id := extractIdFromUrl url
  let authors := e.authorNames
  let title := fieldText e.titleField
  if id = [] ∨ authors = [] ∨ title = [] then
    .error (lit "No such publication")
  else
    .ok
      { url := url
        id := id
        authors := authors
        title := title
        summary := fieldText e.summaryField
        category := categoryOf e
        year := (publishedOf (fieldText e.publishedField)).1
        month := (publishedOf (fieldText e.publishedField)).2
        pub_date := fieldText e.publishedField
        updated := fieldText e.updatedField
        bare_id := pySliceTo id (pyRfindCh 'v' id)
        note := fieldText e.journalRefField
        doi := fieldText e.doiField }

/-- One step of the comprehension
`[name.split()[-1].lower() for name in self.authors]` in
`Reference.citation_key` (line 112): `name` may be `None` (a `name` element
without text), raising `AttributeError`; `name.split()` may be empty,
raising `IndexError` at `[-1]`. -/
def lastNameOf (name : Option Str) : Except Str Str :=
  match name with
  | none => .error (lit "AttributeError")
  | some n =>
    match (pySplit n).getLast? with
    | none => .error (lit "list index out of range")
    | some w => .ok (pyLower w)

/-- `Reference.citation_key` (lines 110-121).  The comprehension over all
authors runs first; then `author_last_names[0]` (raising `IndexError` on an
empty list), the title handling, and the concatenation
`f"{author_last_names[0]}{year}{first_word}"`. -/
def citation_key (r : Reference) : Except Str Str :=
  match r.authors.mapM lastNameOf with
  | .error e => .error e
  | .ok [] => .error (lit "list index out of range")
  | .ok (l0 :: _) =>
    let titleWords := pySplit (pyLower r.title)
    let firstWord :=
      match titleWords with
      | [] => []
      | w :: _ => removeAllCh ':' w
    .ok (l0 ++ r.year ++ firstWord)

/-- The dictionary shape produced by `Reference.to_dict` (lines 123-139). -/
structure RefDict where
  key : Str
  author : Str
  title : Str
  eprint : Str
  archivePrefixVal : Str
  primaryClass : Str
  year : Str
  month : Str
  pubdate : Str
  doi : Str
  url : Str
  note : Str
  summary : Str
  deriving DecidableEq, Repr

/-- `" and ".join(self.authors)` (line 127): raises `TypeError` when a name
is `None`; `citation_key` has already raised in that case, so inside
`to_dict` this join only runs on all-present names. -/
def joinAuthors (authors : List (Option Str)) : Except Str Str := do
  let ns ← authors.mapM (fun a =>
    match a with
    | some n => Except.ok n
    | none => Except.error (lit "TypeError"))
  .ok (joinSep (lit " and ") ns)

/-- `Reference.to_dict` (lines 123-139).  The dict literal evaluates
`self.citation_key()` first, then the `" and "` join. -/
def to_dict (r : Reference) : Except Str RefDict := do
  let key ← citation_key r
  let author ← joinAuthors r.authors
  .ok
    { key := key
      author := author
      title := r.title
      eprint := r.id
      archivePrefixVal := lit "arXiv"
      primaryClass := r.category
      year := r.year
      month := r.month
      pubdate := r.pub_date
      doi := r.doi
      url := r.url
      note := r.note
      summary := r.summary }

/-- A value of the per-id result dictionary: either a full metadata record
or a one-field `{"error": msg}` record. -/
inductive AResult where
  | record (r : RefDict)
  | err (msg : Str)
  deriving DecidableEq, Repr

/-- Python `dict` assignment `d[k] = v` on an insertion-ordered dictionary:
replace in place if the key exists, else append. -/
def dictInsert {β : Type} (d : List (Str × β)) (k : Str) (v : β) :
    List (Str × β) :=
  match d with
  | [] => [(k, v)]
  | (k', v') :: t => if k' = k then (k, v) :: t else (k', v') :: dictInsert t k v

/-- Python `d[k]` lookup, as an option. -/
def dictGet {β : Type} (d : List (Str × β)) (k : Str) : Option β :=
  (d.find? (fun p => p.1 = k)).map (fun p => p.2)

/-- `arxiv2bib_dict` (lines 147-174), with the network call
`arxiv_request(ids)` abstracted as an oracle `fetch` from the list of
requested (valid) ids to the list of returned Atom entries.  Note that the
final loop is `zip(id_list, entries)` — the original `id_list`, not the
validated `ids` that were actually requested. -/
def arxiv2bib_dict (fetch : List Str → List Entry) (id_list : List Str) :
    List (Str × AResult) :=
  let va := id_list.foldl
    (fun (acc : List Str × List (Str × AResult)) id =>
      if is_valid id then (acc.1 ++ [id], acc.2)
      else (acc.1, dictInsert acc.2 id (.err (lit "Invalid arXiv identifier"))))
    ([], [])
  let ids := va.1
  let results := va.2
  if ids = [] then results
  else
    let entries := fetch ids
    (id_list.zip entries).foldl
      (fun res p =>
        match mkReference p.2 >>= to_dict with
        | .ok d => dictInsert res p.1 (.record d)
        | .error e => dictInsert res p.1 (.err e))
      results

end ObsUtils.Arxiv

namespace ObsUtils

/-- The title/summary handling shared verbatim by both renderers
(`generate_arxiv_md.py` lines 180-187, `generate_openreview_md.py` lines
88-97): collapse whitespace with `' '.join(x.split())`, then
`f'"{x.replace('"', '')}"' if ':' in x else x`. -/
def processField (s : Str) : Str :=
  let x := collapseWS s
  if containsCh ':' x then '"' :: removeAllCh '"' x ++ ['"'] else x

end ObsUtils

namespace ObsUtils.Openreview

/-- Full-string matcher of the group part of
`OPENREVIEW_ID = r'^[\w-]+$'` (`generate_openreview_md.py` line 7):
one or more characters, each a word character or a hyphen. -/
def wordHyphenFull (s : Str) : Bool :=
  !s.isEmpty && s.all (fun c => isWordCh c || c == '-')

/-- `is_valid` (`generate_openreview_md.py` lines 10-12):
`bool(OPENREVIEW_ID.match(openreview_id))`. -/
def is_valid (s : Str) : Bool := dollarMatch wordHyphenFull s

/-- The fields of one OpenReview note that `Reference.__init__`
(lines 14-28) reads.  The keys the constructor indexes unconditionally are
modelled as present (indexing presumes them); `pdate` is read with
`json_data.get('pdate', '')` and so is optional (`none` models the `''`
default, `some n` an epoch-milliseconds number). -/
structure ORNote where
  id : Str
  titleValue : Str
  authorsValue : List Str
  abstractValue : Str
  pdfValue : Str
  forum : Str
  pdate : Option Int
  venueidValue : Str
  deriving DecidableEq, Repr

/-- The fields OpenReview `Reference.__init__` stores. -/
structure Reference where
  id : Str
  title : Str
  authors : List Str
  summary : Str
  pdf_url : Str
  url : Str
  pdate : Option Int
  venueid : Str
  deriving DecidableEq, Repr

/-- OpenReview `Reference.__init__` (lines 14-28): store the fields, then
`if not self.id or not self.authors or not self.title: raise
Exception("No such publication")` (Python truthiness: empty string or empty
list). -/
def mkReference (n : ORNote) : Except Str Reference :=
  if n.id = [] ∨ n.authorsValue = [] ∨ n.titleValue = [] then
    .error (lit "No such publication")
  else
    .ok
      { id := n.id
        title := n.titleValue
        authors := n.authorsValue
        summary := n.abstractValue
        pdf_url := lit "https://openreview.net" ++ n.pdfValue
        url := lit "https://openreview.net/forum?id=" ++ n.forum
        pdate := n.pdate
        venueid := n.venueidValue }

/-- The metadata record consumed by the OpenReview `generate_markdown_file`
(a `Reference.to_dict` result, or any synthetic record of the same shape).
The `datetime` conversions of `to_dict` are environment calls (local
timezone) and are not re-derived here; the renderer takes the record's
fields as given. -/
structure ORDict where
  key : Str
  author : Str
  title : Str
  eprint : Str
  url : Str
  summary : Str
  pubdate : Str
  venue : Str
  deriving DecidableEq, Repr

/-- The lines of the f-string template of `generate_markdown_file`
(lines 88-123), in order.  `dateAdded` stands for the
`datetime.now().strftime("%Y-%m-%d (%a)")` environment call. -/
def renderLines (m : ORDict) (dateAdded : Str) : List Str :=
  [lit "---",
   lit "title: " ++ processField m.title,
   lit "authors: " ++ m.author,
   lit "tldr: " ++ processField m.summary,
   lit "venue: OpenReview",
   lit "date_published: " ++ m.pubdate,
   lit "rating: 0/5",
   lit "date_added: " ++ dateAdded,
   lit "url: " ++ m.url,
   lit "links: ",
   lit "tags:",
   lit "---",
   lit "> [!notes] Notes",
   lit "> Summary, Quotes, Thoughts, Questions, etc.",
   lit "",
   lit "---",
   lit "# PDF",
   lit "",
   lit "![[" ++ m.key ++ lit ".pdf]]"]

/-- `generate_markdown_file` (lines 88-123): the template joined into one
string with newlines, exactly as the f-string literal spells it. -/
def generate_markdown_file (m : ORDict) (dateAdded : Str) : Str :=
  joinNL (renderLines m dateAdded)

end ObsUtils.Openreview

namespace ObsUtils

/-- Whether the second string starts with the first. -/
def startsW : Str → Str → Bool
  | [], _ => true
  | x :: xs, l =>
    match l with
    | [] => false
    | y :: ys => x == y && startsW xs ys

/-- Re-parse a rendered note (of either renderer) for a front-matter field:
the text after `key ++ ": "` on the first line that starts with it. -/
def parseField (key : Str) (content : Str) : Option Str :=
  match (splitCh '\n' content).find? (fun l => startsW (key ++ lit ": ") l) with
  | some l => some (l.drop (key.length + 2))
  | none => none

end ObsUtils

namespace ObsUtils.Arxiv

/-- One decimal digit as a character. -/
def digitCh : Nat → Char
  | 0 => '0' | 1 => '1' | 2 => '2' | 3 => '3' | 4 => '4'
  | 5 => '5' | 6 => '6' | 7 => '7' | 8 => '8' | _ => '9'

/-- A number zero-padded to two digits (`strftime` `%m` / `%d`). -/
def pad2 (n : Nat) : Str := [digitCh (n / 10 % 10), digitCh (n % 10)]

/-- A year of at most four digits, unpadded (`strftime` `%Y` renders the
year without leading zeroes on the target platform, e.g. year 999 as
`"999"`). -/
def yearStr (y : Nat) : Str :=
  if y < 10 then [digitCh y]
  else if y < 100 then [digitCh (y / 10), digitCh (y % 10)]
  else if y < 1000 then [digitCh (y / 100), digitCh (y / 10 % 10), digitCh (y % 10)]
  else [digitCh (y / 1000 % 10), digitCh (y / 100 % 10), digitCh (y / 10 % 10),
    digitCh (y % 10)]

/-- `strftime("%Y-%m-%d")` of a parsed date. -/
def fmtYmd (y mo dy : Nat) : Str :=
  yearStr y ++ '-' :: pad2 mo ++ '-' :: pad2 dy

/-- Gregorian leap year, as `datetime` uses it. -/
def isLeap (y : Nat) : Bool := (y % 4 = 0 && y % 100 ≠ 0) || y % 400 = 0

/-- Days in a month, as the `datetime` constructor validates them. -/
def daysInMonth (y mo : Nat) : Nat :=
  if mo = 2 then (if isLeap y then 29 else 28)
  else if mo = 4 ∨ mo = 6 ∨ mo = 9 ∨ mo = 11 then 30
  else 31

/-- `strptime`'s `%Y`: exactly four digits. -/
def parse4Digits : Str → Option (Nat × Str)
  | a :: b :: c :: d :: rest =>
    if isDigitCh a && isDigitCh b && isDigitCh c && isDigitCh d then
      some (1000 * (a.toNat - 48) + 100 * (b.toNat - 48) +
        10 * (c.toNat - 48) + (d.toNat - 48), rest)
    else none
  | _ => none

/-- `strptime`'s one-or-two-digit numeric fields (`%m`, `%d`, `%H`, `%M`,
`%S`): prefer two digits, fall back to one; the value must lie in
`[lo, hi]`.  (When a two-digit read is out of range the regex backtracks to
one digit, but the next character is then a digit and can never match the
following format literal, so the overall match fails either way.) -/
def parseNum2 (lo hi : Nat) : Str → Option (Nat × Str)
  | a :: b :: rest =>
    if isDigitCh a && isDigitCh b then
      let n := 10 * (a.toNat - 48) + (b.toNat - 48)
      if lo ≤ n ∧ n ≤ hi then some (n, rest) else none
    else if isDigitCh a then
      let n := a.toNat - 48
      if lo ≤ n ∧ n ≤ hi then some (n, b :: rest) else none
    else none
  | [a] =>
    if isDigitCh a then
      let n := a.toNat - 48
      if lo ≤ n ∧ n ≤ hi then some (n, []) else none
    else none
  | [] => none

/-- `datetime.strptime(s, "%Y-%m-%dT%H:%M:%SZ").strftime("%Y-%m-%d")` of
`generate_markdown_file` (line 192): `none` models the uncaught
`ValueError` (format mismatch, year 0, day out of range for the month, or a
60/61 leap second, which the `datetime` constructor rejects); on success
the formatted date string.  Verified against CPython on the target
platform, including the 1-2-digit fields and the unpadded `%Y` output. -/
def strptimeIsoZ (s : Str) : Option Str :=
  match parse4Digits s with
  | none => none
  | some (y, r1) =>
    match r1 with
    | '-' :: r2 =>
      match parseNum2 1 12 r2 with
      | none => none
      | some (mo, r3) =>
        match r3 with
        | '-' :: r4 =>
          match parseNum2 1 31 r4 with
          | none => none
          | some (dy, r5) =>
            match r5 with
            | 'T' :: r6 =>
              match parseNum2 0 23 r6 with
              | none => none
              | some (_, r7) =>
                match r7 with
                | ':' :: r8 =>
                  match parseNum2 0 59 r8 with
                  | none => none
                  | some (_, r9) =>
                    match r9 with
                    | ':' :: r10 =>
                      match parseNum2 0 59 r10 with
                      | none => none
                      | some (_, r11) =>
                        match r11 with
                        | ['Z'] =>
                          if 1 ≤ y ∧ dy ≤ daysInMonth y mo then
                            some (fmtYmd y mo dy)
                          else none
                        | _ => none
                    | _ => none
                | _ => none
            | _ => none
        | _ => none
    | _ => none

/-- The lines of the f-string template of the arXiv
`generate_markdown_file` (`generate_arxiv_md.py` lines 194-213), with
`datePub` the already-converted `date_published` and `dateAdded` the
`datetime.now()` environment call.  Identical to the OpenReview template
except for the venue line and the date conversion. -/
def renderLines (m : RefDict) (datePub dateAdded : Str) : List Str :=
  [lit "---",
   lit "title: " ++ processField m.title,
   lit "authors: " ++ m.author,
   lit "tldr: " ++ processField m.summary,
   lit "venue: arXiv",
   lit "date_published: " ++ datePub,
   lit "rating: 0/5",
   lit "date_added: " ++ dateAdded,
   lit "url: " ++ m.url,
   lit "links: ",
   lit "tags:",
   lit "---",
   lit "> [!notes] Notes",
   lit "> Summary, Quotes, Thoughts, Questions, etc.",
   lit "",
   lit "---",
   lit "# PDF",
   lit "",
   lit "![[" ++ m.key ++ lit ".pdf]]"]

/-- The arXiv `generate_markdown_file` (lines 180-215): it first parses
`metadata['pubdate']` with `strptime`, which raises an uncaught
`ValueError` on any non-conforming string; on success it renders the
template. -/
def generate_markdown_file (m : RefDict) (dateAdded : Str) : Except Str Str :=
  match strptimeIsoZ m.pubdate with
  | none => .error (lit "ValueError")
  | some dp => .ok (joinNL (renderLines m dp dateAdded))

end ObsUtils.Arxiv

namespace ObsUtils.Openreview

/-- One step of the comprehension
`[name.split()[-1].lower() for name in self.authors]` in the OpenReview
`Reference.citation_key` (line 32); OpenReview author names are plain
strings, and `name.split()[-1]` raises `IndexError` when the name has no
tokens. -/
def lastTokenLower (n : Str) : Except Str Str :=
  match (pySplit n).getLast? with
  | none => .error (lit "list index out of range")
  | some w => .ok (pyLower w)

/-- `datetime.fromtimestamp(self.pub_date / 1000).year if self.pub_date
else "YYYY"` (line 33): `yearOfMs` stands for the environment call
`str(datetime.fromtimestamp(ms / 1000).year)` (local timezone); Python
truthiness makes both the `''` default (`none`) and a `0` timestamp fall
back to `"YYYY"`. -/
def orYear (yearOfMs : Int → Str) : Option Int → Str
  | none => lit "YYYY"
  | some n => if n = 0 then lit "YYYY" else yearOfMs n

/-- The OpenReview `Reference.citation_key` (lines 30-35).  The author
comprehension runs first; then the year; then
`self.title.lower().split()[0].replace(":", "") if self.title else ""` —
the guard is the truthiness of the title *string*, so a non-empty
whitespace-only title reaches `[0]` on an empty word list and raises
`IndexError`; finally `author_last_names[0]` is indexed in the f-string. -/
def citation_key (yearOfMs : Int → Str) (r : Reference) : Except Str Str :=
  match r.authors.mapM lastTokenLower with
  | .error e => .error e
  | .ok lasts =>
    let year := orYear yearOfMs r.pdate
    let fw : Except Str Str :=
      if r.title = [] then .ok []
      else
        match pySplit (pyLower r.title) with
        | [] => .error (lit "list index out of range")
        | w :: _ => .ok (removeAllCh ':' w)
    match fw with
    | .error e => .error e
    | .ok firstWord =>
      match lasts with
      | [] => .error (lit "list index out of range")
      | l0 :: _ => .ok (l0 ++ year ++ firstWord)

end ObsUtils.Openreview

namespace ObsUtils

/-- Spec-side rendering of a title or abstract, following the spec's words:
after collapsing whitespace runs, a field containing a colon is wrapped in
double quotes with any literal double-quote characters first stripped;
otherwise it is inserted unchanged. -/
def specProcessField (s : Str) : Str :=
  let c := collapseWS s
  if containsCh ':' c then ['"'] ++ c.filter (fun x => x ≠ '"') ++ ['"'] else c

/-- Spec-side citation key, following the spec's words: the lowercased last
whitespace-separated token of the first author's name, then the year string
as given, then the lowercased first whitespace-separated token of the title
with any colon characters removed (empty when the title has no words). -/
def specCitationKey (firstAuthor year title : Str) : Str :=
  pyLower ((pySplit firstAuthor).getLastD []) ++ year ++
    removeAllCh ':' (pyLower ((pySplit title).headD []))

/-- A Python `except`-free projection of an `Except` value, used to name
the reference a successful construction produces. -/
def okOr {α : Type} (x : Except Str α) (d : α) : α :=
  match x with
  | .ok v => v
  | .error _ => d

end ObsUtils

namespace ObsUtils.Arxiv

/-- A throwaway `Reference` used only as the default of `okOr`. -/
def junkARef : Reference :=
  { url := [], id := [], authors := [], title := [], summary := [],
    category := [], year := [], month := [], pub_date := [], updated := [],
    bare_id := [], note := [], doi := [] }

/-- A well-formed Atom entry for arXiv id `2310.01234`. -/
def entryGood : Entry :=
  { idField := some (some (lit "http://arxiv.org/abs/2310.01234"))
    titleField := some (some (lit "A Title"))
    summaryField := some (some (lit "An abstract."))
    publishedField := some (some (lit "2023-10-02T00:00:00Z"))
    updatedField := some (some (lit "2023-10-03T00:00:00Z"))
    journalRefField := none
    doiField := none
    primaryCategoryTerm := some (some (lit "cs.LG"))
    authorNames := [some (lit "Ann Smith")] }

/-- An entry with no title (and nothing else), on which construction must
fail with "No such publication". -/
def entryNSP : Entry :=
  { idField := none, titleField := none, summaryField := none,
    publishedField := none, updatedField := none, journalRefField := none,
    doiField := none, primaryCategoryTerm := none, authorNames := [] }

/-- An entry whose required fields are present but all optional fields are
absent. -/
def entryMin : Entry :=
  { idField := some (some (lit "http://arxiv.org/abs/1234.5678"))
    titleField := some (some (lit "T"))
    summaryField := none, publishedField := none, updatedField := none,
    journalRefField := none, doiField := none, primaryCategoryTerm := none,
    authorNames := [some (lit "A B")] }

/-- The reference built from `entryGood`. -/
def refGood : Reference := okOr (mkReference entryGood) junkARef

/-- The reference built from `entryMin`. -/
def refMin : Reference := okOr (mkReference entryMin) junkARef

/-- An oracle standing for `arxiv_request`: the arXiv API returning exactly
one Atom entry (for the single valid id that gets requested). -/
def fetchOne : List Str → List Entry := fun _ => [entryGood]

/-- Whether a dictionary lookup produced a full metadata record. -/
def isRecordO : Option AResult → Bool
  | some (.record _) => true
  | _ => false

end ObsUtils.Arxiv

namespace ObsUtils

/-- C2 counterexample: Python's `$` also matches just before a trailing
newline, so `is_valid` accepts `"2310.01234\n"`, which does not fully match
either alternative anchored at both ends. -/
theorem claim_C2_counterexample :
    Arxiv.is_valid (lit "2310.01234\n") = true ∧
    Arxiv.specFullValid (lit "2310.01234\n") = false := by
  constructor
  · decide
  · decide

/-- C2 (amended): `is_valid(arxiv_id)` returns true exactly for strings
that — after possibly discarding one trailing newline, which Python's `$`
tolerates — fully match the new-style pattern (four digits, a period,
four-or-more digits, optional `vN`) or the old-style pattern (an enumerated
subject area with optional sub-category, `/`, exactly 7 digits, optional
`vN`); in particular it accepts `"2310.01234"`, `"2310.01234v2"` and
`"hep-th/0601001"`, and rejects `"abc123"`, `"2310.123"` and
`"xx-yy/0601001"`. -/
theorem claim_C2 :
    (∀ s : Str,
      Arxiv.is_valid s =
        (Arxiv.specFullValid s || dollarTail Arxiv.specFullValid s)) ∧
    Arxiv.is_valid (lit "2310.01234") = true ∧
    Arxiv.is_valid (lit "2310.01234v2") = true ∧
    Arxiv.is_valid (lit "hep-th/0601001") = true ∧
    Arxiv.is_valid (lit "abc123") = false ∧
    Arxiv.is_valid (lit "2310.123") = false ∧
    Arxiv.is_valid (lit "xx-yy/0601001") = false := by
  refine ⟨?_, by decide, by decide, by decide, by decide, by decide, by decide⟩
  intro s
  unfold Arxiv.is_valid dollarMatch Arxiv.specFullValid dollarTail
  cases h : s.getLast? with
  | none => simp
  | some c =>
    cases hc : (c == '\n') <;>
      cases h1 : Arxiv.newStyleFull s <;>
      cases h2 : Arxiv.oldStyleFull s <;>
      cases h3 : Arxiv.newStyleFull s.dropLast <;>
      cases h4 : Arxiv.oldStyleFull s.dropLast <;>
      simp [hc, h1, h2, h3, h4]

/-- C8 counterexample: `is_valid("abc\n")` is true (Python's `$` matches
before the trailing newline) although the string does not consist only of
word characters and hyphens. -/
theorem claim_C8_counterexample :
    Openreview.is_valid (lit "abc\n") = true ∧
    Openreview.wordHyphenFull (lit "abc\n") = false := by
  constructor
  · decide
  · decide

/-- C8 (amended): the OpenReview `is_valid` returns true iff the string —
after possibly discarding one trailing newline, which Python's `$`
tolerates — is a non-empty sequence of word characters and hyphens; strings
containing a space or `!` are rejected. -/
theorem claim_C8 :
    (∀ s : Str,
      Openreview.is_valid s =
        (Openreview.wordHyphenFull s ||
          dollarTail Openreview.wordHyphenFull s)) ∧
    Openreview.is_valid (lit "a b") = false ∧
    Openreview.is_valid (lit "ab!") = false ∧
    Openreview.is_valid (lit "") = false ∧
    Openreview.is_valid (lit "Abc-123_x") = true := by
  exact ⟨fun s => rfl, by decide, by decide, by decide, by decide⟩

/-- The two spellings of "drop every double quote" agree. -/
theorem filter_quote_eq (l : Str) :
    l.filter (fun x => !(x == '"')) = l.filter (fun x => x ≠ '"') := by
  apply List.filter_congr
  intro x _
  by_cases h : x = '"' <;> simp [h]

/-- C5: both renderers collapse whitespace in title and abstract and then,
exactly when the collapsed field contains a colon, wrap it in double quotes
with literal double quotes stripped; `Foo: "Bar"` renders as `"Foo: Bar"`
(quotes included). -/
theorem claim_C5 :
    (∀ s : Str, processField s = specProcessField s) ∧
    processField (lit "Foo: \"Bar\"") = lit "\"Foo: Bar\"" := by
  refine ⟨?_, by decide⟩
  intro s
  simp only [processField, specProcessField, removeAllCh]
  rw [filter_quote_eq]
  rfl

/-- C7 (code bug): for the id `2310.01234`, which contains no `v` at all,
`rfind('v')` is `-1` and `self.id[:-1]` drops the final character, so
`bare_id` is `2310.0123`, not the id itself. -/
theorem claim_C7_bug :
    Arxiv.refGood.id = lit "2310.01234" ∧
    containsCh 'v' Arxiv.refGood.id = false ∧
    Arxiv.refGood.bare_id = lit "2310.0123" := by
  refine ⟨by decide, by decide, by decide⟩

/-- C10 counterexample: for the id URL `"abs"` (which does not contain
`/abs/` and has fewer than five characters), the extracted id is empty, so
it is not the case that every such URL yields a non-empty id. -/
theorem claim_C10_counterexample :
    hasSubstr (lit "/abs/") (lit "abs") = false ∧
    Arxiv.extractIdFromUrl (lit "abs") = [] := by
  constructor
  · decide
  · decide

/-- C10 (amended): for every id URL not containing `/abs/`, the failed
search yields `-1` and the slice starts at `-1 + 5 = 4`, so the extracted
id equals the URL with its first four characters removed; it is non-empty
and differs from the whole URL exactly when the URL is longer than four
characters. -/
theorem claim_C10 (url : Str) (h : hasSubstr (lit "/abs/") url = false) :
    Arxiv.extractIdFromUrl url = url.drop 4 ∧
    (4 < url.length →
      Arxiv.extractIdFromUrl url ≠ [] ∧ Arxiv.extractIdFromUrl url ≠ url) := by
  have hf : pyFind (lit "/abs/") url = -1 := by
    unfold hasSubstr at h
    unfold pyFind
    cases hx : findSubAux (lit "/abs/") url 0 with
    | none => rfl
    | some i => rw [hx] at h; simp at h
  have hd : Arxiv.extractIdFromUrl url = url.drop 4 := by
    unfold Arxiv.extractIdFromUrl pyDropFrom
    rw [hf]
    rfl
  refine ⟨hd, fun hlen => ⟨?_, ?_⟩⟩
  · rw [hd]
    intro hnil
    have := congrArg List.length hnil
    simp at this
    omega
  · rw [hd]
    intro heq
    have := congrArg List.length heq
    simp at this
    omega

/-- Witness for C10 at the concrete URL `"httpabc"`. -/
theorem claim_C10_witness :
    Arxiv.extractIdFromUrl (lit "httpabc") = (lit "httpabc").drop 4 ∧
    Arxiv.extractIdFromUrl (lit "httpabc") ≠ [] ∧
    Arxiv.extractIdFromUrl (lit "httpabc") ≠ lit "httpabc" := by
  have h := claim_C10 (lit "httpabc") (by decide)
  exact ⟨h.1, (h.2 (by decide)).1, (h.2 (by decide)).2⟩

/-- C1 (code bug, arXiv side): `arxiv2bib_dict` zips the original
`id_list` — not the validated `ids` it actually requested — with the
returned entries.  With an invalid id before a valid one, the valid id's
metadata record is stored under the invalid id (overwriting its error
entry) and the valid id is missing from the result entirely.  With the
invalid id last (the spec's example order) the result happens to be
correct. -/
theorem claim_C1_bug :
    Arxiv.dictGet
      (Arxiv.arxiv2bib_dict Arxiv.fetchOne [lit "bad id!!", lit "2310.01234"])
      (lit "2310.01234") = none ∧
    Arxiv.isRecordO
      (Arxiv.dictGet
        (Arxiv.arxiv2bib_dict Arxiv.fetchOne [lit "bad id!!", lit "2310.01234"])
        (lit "bad id!!")) = true ∧
    Arxiv.isRecordO
      (Arxiv.dictGet
        (Arxiv.arxiv2bib_dict Arxiv.fetchOne [lit "2310.01234", lit "bad id!!"])
        (lit "2310.01234")) = true ∧
    Arxiv.dictGet
      (Arxiv.arxiv2bib_dict Arxiv.fetchOne [lit "2310.01234", lit "bad id!!"])
      (lit "bad id!!") =
        some (.err (lit "Invalid arXiv identifier")) := by
  refine ⟨by decide, by decide, by decide, by decide⟩

end ObsUtils

namespace ObsUtils

/-- An OpenReview note with empty title, on which construction must fail
with "No such publication". -/
def noteNSP : Openreview.ORNote :=
  { id := lit "abc", titleValue := [], authorsValue := [lit "A B"],
    abstractValue := [], pdfValue := [], forum := [], pdate := none,
    venueidValue := [] }

/-- C4: constructing a `Reference` from one raw entry fails with
"No such publication" exactly when the extracted id, the author list, or
the title is empty (for arXiv the id is the one extracted from the id URL,
the authors are the `author/name` elements, the title is the stripped
title text); consequently every successfully constructed reference has
non-empty id, authors and title.  Both the arXiv and the OpenReview
constructor are covered. -/
theorem claim_C4 :
    (∀ e : Arxiv.Entry,
      Arxiv.mkReference e = .error (lit "No such publication") ↔
        (Arxiv.extractIdFromUrl (Arxiv.fieldText e.idField) = [] ∨
          e.authorNames = [] ∨ Arxiv.fieldText e.titleField = [])) ∧
    (∀ (e : Arxiv.Entry) (r : Arxiv.Reference),
      Arxiv.mkReference e = .ok r →
        r.id ≠ [] ∧ r.authors ≠ [] ∧ r.title ≠ []) ∧
    (∀ n : Openreview.ORNote,
      Openreview.mkReference n = .error (lit "No such publication") ↔
        (n.id = [] ∨ n.authorsValue = [] ∨ n.titleValue = [])) ∧
    (∀ (n : Openreview.ORNote) (r : Openreview.Reference),
      Openreview.mkReference n = .ok r →
        r.id ≠ [] ∧ r.authors ≠ [] ∧ r.title ≠ []) := by
  refine ⟨?_, ?_, ?_, ?_⟩
  · intro e
    by_cases hc : Arxiv.extractIdFromUrl (Arxiv.fieldText e.idField) = [] ∨
        e.authorNames = [] ∨ Arxiv.fieldText e.titleField = [] <;>
      simp [Arxiv.mkReference, hc]
  · intro e r h
    by_cases hc : Arxiv.extractIdFromUrl (Arxiv.fieldText e.idField) = [] ∨
        e.authorNames = [] ∨ Arxiv.fieldText e.titleField = []
    · simp [Arxiv.mkReference, hc] at h
    · simp [Arxiv.mkReference, hc] at h
      push_neg at hc
      rw [← h]
      exact ⟨hc.1, hc.2.1, hc.2.2⟩
  · intro n
    by_cases hc : n.id = [] ∨ n.authorsValue = [] ∨ n.titleValue = [] <;>
      simp [Openreview.mkReference, hc]
  · intro n r h
    by_cases hc : n.id = [] ∨ n.authorsValue = [] ∨ n.titleValue = []
    · simp [Openreview.mkReference, hc] at h
    · simp [Openreview.mkReference, hc] at h
      push_neg at hc
      rw [← h]
      exact ⟨hc.1, hc.2.1, hc.2.2⟩

/-- Witness for C4: construction fails with "No such publication" on the
entry with no title, and the reference built from the well-formed entry has
a non-empty id. -/
theorem claim_C4_witness :
    Arxiv.mkReference Arxiv.entryNSP = .error (lit "No such publication") ∧
    Openreview.mkReference noteNSP = .error (lit "No such publication") ∧
    Arxiv.refGood.id ≠ [] := by
  refine ⟨(claim_C4.1 Arxiv.entryNSP).mpr (by decide),
    (claim_C4.2.2.1 noteNSP).mpr (by decide),
    (claim_C4.2.1 Arxiv.entryGood Arxiv.refGood (by rfl)).1⟩

/-- C9: the optional-field extractors are total.  `_field_text` returns the
stripped text when the element and its text are present and `""` when the
element is absent or has no text; `_category` returns the `term` attribute
and `""` when the element or the attribute is missing; consequently, for
every successfully constructed reference, each optional field (summary,
category, published/year/month, updated, journal-ref note, doi) is a
string, defaulting to `""` when its source element is absent. -/
theorem claim_C9 :
    (∀ t : Str, Arxiv.fieldText (some (some t)) = pyStrip t) ∧
    Arxiv.fieldText (some none) = [] ∧
    Arxiv.fieldText none = [] ∧
    (∀ e : Arxiv.Entry, e.primaryCategoryTerm = none → Arxiv.categoryOf e = []) ∧
    (∀ e : Arxiv.Entry, e.primaryCategoryTerm = some none →
      Arxiv.categoryOf e = []) ∧
    (∀ (e : Arxiv.Entry) (t : Str), e.primaryCategoryTerm = some (some t) →
      Arxiv.categoryOf e = t) ∧
    (∀ (e : Arxiv.Entry) (r : Arxiv.Reference), Arxiv.mkReference e = .ok r →
      (e.summaryField = none → r.summary = []) ∧
      (e.primaryCategoryTerm = none → r.category = []) ∧
      (e.publishedField = none →
        r.pub_date = [] ∧ r.year = [] ∧ r.month = []) ∧
      (e.updatedField = none → r.updated = []) ∧
      (e.journalRefField = none → r.note = []) ∧
      (e.doiField = none → r.doi = [])) := by
  refine ⟨fun t => rfl, rfl, rfl, ?_, ?_, ?_, ?_⟩
  · intro e h
    simp [Arxiv.categoryOf, h]
  · intro e h
    simp [Arxiv.categoryOf, h]
  · intro e t h
    simp [Arxiv.categoryOf, h]
  · intro e r h
    by_cases hc : Arxiv.extractIdFromUrl (Arxiv.fieldText e.idField) = [] ∨
        e.authorNames = [] ∨ Arxiv.fieldText e.titleField = []
    · simp [Arxiv.mkReference, hc] at h
    · simp [Arxiv.mkReference, hc] at h
      rw [← h]
      refine ⟨fun hs => by simp [Arxiv.fieldText, hs],
        fun hs => by simp [Arxiv.categoryOf, hs],
        fun hs => ?_,
        fun hs => by simp [Arxiv.fieldText, hs],
        fun hs => by simp [Arxiv.fieldText, hs],
        fun hs => by simp [Arxiv.fieldText, hs]⟩
      have hft : Arxiv.fieldText e.publishedField = [] := by
        simp [Arxiv.fieldText, hs]
      simp [hft, Arxiv.publishedOf]

/-- Witness for C9: the reference built from the entry with all optional
elements absent has empty summary, category, dates, note and doi. -/
theorem claim_C9_witness :
    Arxiv.refMin.summary = [] ∧ Arxiv.refMin.category = [] ∧
    Arxiv.refMin.year = [] ∧ Arxiv.refMin.doi = [] := by
  have h := claim_C9.2.2.2.2.2.2 Arxiv.entryMin Arxiv.refMin (by rfl)
  exact ⟨h.1 rfl, h.2.1 rfl, (h.2.2.1 rfl).2.1, h.2.2.2.2.2 rfl⟩

end ObsUtils

namespace ObsUtils

/-- Lower-casing a character preserves whether it is whitespace. -/
theorem isSpaceCh_toLowerCh (c : Char) : isSpaceCh (toLowerCh c) = isSpaceCh c := by
  unfold toLowerCh
  split <;> rfl

/-- `split()` commutes with `lower()`: lower-casing first and splitting
gives the lower-cased words. -/
theorem pySplitAux_map_lower (s : Str) :
    ∀ acc : Str,
      pySplitAux (acc.map toLowerCh) (s.map toLowerCh) =
        (pySplitAux acc s).map (List.map toLowerCh) := by
  induction s with
  | nil =>
    intro acc
    cases acc <;> simp [pySplitAux]
  | cons c t ih =>
    intro acc
    by_cases hc : isSpaceCh c = true
    · cases acc with
      | nil =>
        simp [pySplitAux, isSpaceCh_toLowerCh, hc]
        exact ih []
      | cons a as =>
        simp [pySplitAux, isSpaceCh_toLowerCh, hc, List.map_reverse]
        exact ih []
    · have hc' : isSpaceCh (toLowerCh c) = false := by
        rw [isSpaceCh_toLowerCh]
        exact Bool.not_eq_true _ ▸ (by simpa using hc)
      have := ih (c :: acc)
      simp only [List.map_cons] at this
      simp [pySplitAux, isSpaceCh_toLowerCh, Bool.not_eq_true _ ▸ hc]
      exact this

/-- `pySplit (pyLower s)` is the word list of `s`, each word lower-cased. -/
theorem pySplit_lower (s : Str) :
    pySplit (pyLower s) = (pySplit s).map pyLower := by
  have h := pySplitAux_map_lower s []
  simpa [pySplit, pyLower] using h

/-- Definedness of one comprehension step: the name is present and has at
least one whitespace-separated token. -/
def authorOk : Option Str → Bool
  | none => false
  | some n => !(pySplit n).isEmpty

/-- The value one comprehension step produces on a well-formed name. -/
def lastNameD : Option Str → Str
  | none => []
  | some n => pyLower ((pySplit n).getLastD [])

/-- `lastNameOf` succeeds on a well-formed name and yields the lower-cased
last token. -/
theorem lastNameOf_ok (n : Str) (hn : pySplit n ≠ []) :
    Arxiv.lastNameOf (some n) = Except.ok (pyLower ((pySplit n).getLastD [])) := by
  unfold Arxiv.lastNameOf
  cases hg : (pySplit n).getLast? with
  | none => exact absurd (List.getLast?_eq_none_iff.mp hg) hn
  | some w => simp [List.getLastD_eq_getLast?, hg]

/-- The author comprehension succeeds on a list of well-formed names and
yields the lower-cased last tokens. -/
theorem mapM_lastNameOf (l : List (Option Str))
    (h : ∀ a ∈ l, authorOk a = true) :
    l.mapM Arxiv.lastNameOf = Except.ok (l.map lastNameD) := by
  induction l with
  | nil => rfl
  | cons a t ih =>
    have ha := h a (by simp)
    have ht : ∀ x ∈ t, authorOk x = true := fun x hx => h x (by simp [hx])
    cases a with
    | none => simp [authorOk] at ha
    | some n =>
      have hn : pySplit n ≠ [] := by
        intro hx
        rw [authorOk, hx] at ha
        simp at ha
      rw [List.mapM_cons, lastNameOf_ok n hn, ih ht]
      rfl

/-- The name of the first author of a reference (empty when there is none
or when the first `name` element had no text). -/
def firstAuthorName (r : Arxiv.Reference) : Str :=
  match r.authors with
  | some n :: _ => n
  | _ => []

/-- `lastTokenLower` succeeds on a name with at least one token and yields
the lower-cased last token. -/
theorem lastTokenLower_ok (n : Str) (hn : pySplit n ≠ []) :
    Openreview.lastTokenLower n =
      Except.ok (pyLower ((pySplit n).getLastD [])) := by
  unfold Openreview.lastTokenLower
  cases hg : (pySplit n).getLast? with
  | none => exact absurd (List.getLast?_eq_none_iff.mp hg) hn
  | some w => simp [List.getLastD_eq_getLast?, hg]

/-- The OpenReview author comprehension succeeds on a list of names each
having at least one token. -/
theorem mapM_lastTokenLower (l : List Str)
    (h : ∀ n ∈ l, pySplit n ≠ []) :
    l.mapM Openreview.lastTokenLower =
      Except.ok (l.map (fun n => pyLower ((pySplit n).getLastD []))) := by
  induction l with
  | nil => rfl
  | cons a t ih =>
    have ha := h a (by simp)
    have ht : ∀ x ∈ t, pySplit x ≠ [] := fun x hx => h x (by simp [hx])
    rw [List.mapM_cons, lastTokenLower_ok a ha, ih ht]
    rfl

/-- The first author name of an OpenReview reference. -/
def orFirstAuthor (r : Openreview.Reference) : Str := r.authors.headD []

/-- A throwaway OpenReview `Reference` used only as the default of `okOr`. -/
def junkORef : Openreview.Reference :=
  { id := [], title := [], authors := [], summary := [], pdf_url := [],
    url := [], pdate := none, venueid := [] }

/-- A raw note whose title is a single space: non-empty, so it passes both
the constructor's truthiness check and the `if self.title` guard in
`citation_key`, but it has no whitespace-separated words. -/
def noteWs : Openreview.ORNote :=
  { id := lit "x", titleValue := lit " ", authorsValue := [lit "Ann Smith"],
    abstractValue := [], pdfValue := [], forum := [], pdate := none,
    venueidValue := [] }

/-- The reference built from `noteWs`. -/
def refWs : Openreview.Reference := okOr (Openreview.mkReference noteWs) junkORef

/-- C3 counterexample: the OpenReview `citation_key` guards the title
component with the truthiness of the title *string* (`if self.title`), not
of its word list, so on a constructible reference whose title is a single
space — non-empty but with no words — it raises `IndexError` at
`self.title.lower().split()[0]` instead of yielding an empty title
component as the claim states. -/
theorem claim_C3_counterexample :
    Openreview.mkReference noteWs = Except.ok refWs ∧
    refWs.title ≠ [] ∧ pySplit refWs.title = [] ∧
    Openreview.citation_key (fun _ => lit "1970") refWs =
      Except.error (lit "list index out of range") := by
  exact ⟨by rfl, by decide, by decide, by rfl⟩

/-- C3 (amended): for every reference with a non-empty ordered author list
each of whose names has at least one whitespace-separated token, the
citation key is the lowercased last token of the first author's name, then
the year component (the stored year string as given for arXiv; for
OpenReview the year derived from the publication timestamp, or `"YYYY"`
when it is absent or zero), then the lowercased first whitespace-separated
token of the title with any colon characters removed.  For arXiv a title
with no words yields the empty title component; for OpenReview only a title
that is the empty *string* does — a non-empty whitespace-only title makes
its `citation_key` raise `IndexError` instead (the counterexample), so the
OpenReview case additionally assumes the title is empty or has a word. -/
theorem claim_C3 :
    (∀ r : Arxiv.Reference, r.authors ≠ [] →
      (∀ a ∈ r.authors, authorOk a = true) →
      Arxiv.citation_key r =
        Except.ok (specCitationKey (firstAuthorName r) r.year r.title)) ∧
    (∀ (yearOfMs : Int → Str) (r : Openreview.Reference), r.authors ≠ [] →
      (∀ n ∈ r.authors, pySplit n ≠ []) →
      (r.title = [] ∨ pySplit r.title ≠ []) →
      Openreview.citation_key yearOfMs r =
        Except.ok (specCitationKey (orFirstAuthor r)
          (Openreview.orYear yearOfMs r.pdate) r.title)) := by
  constructor
  · intro r h1 h2
    obtain ⟨a0, rest, hr⟩ : ∃ a0 rest, r.authors = a0 :: rest := by
      cases hx : r.authors with
      | nil => exact absurd hx h1
      | cons a0 rest => exact ⟨a0, rest, rfl⟩
    have ha0 : authorOk a0 = true := h2 a0 (by rw [hr]; simp)
    cases a0 with
    | none => simp [authorOk] at ha0
    | some n0 =>
      have hmap : r.authors.mapM Arxiv.lastNameOf =
          Except.ok (r.authors.map lastNameD) := mapM_lastNameOf r.authors h2
      unfold Arxiv.citation_key
      rw [hmap, hr]
      simp only [List.map_cons]
      rw [pySplit_lower]
      unfold specCitationKey firstAuthorName
      rw [hr]
      cases ht : pySplit r.title with
      | nil => simp [lastNameD, pyLower, removeAllCh]
      | cons w ws => simp [lastNameD]
  · intro yearOfMs r h1 h2 h3
    obtain ⟨n0, rest, hr⟩ : ∃ n0 rest, r.authors = n0 :: rest := by
      cases hx : r.authors with
      | nil => exact absurd hx h1
      | cons n0 rest => exact ⟨n0, rest, rfl⟩
    have hmap : r.authors.mapM Openreview.lastTokenLower =
        Except.ok (r.authors.map (fun n => pyLower ((pySplit n).getLastD []))) :=
      mapM_lastTokenLower r.authors h2
    unfold Openreview.citation_key
    rw [hmap, hr]
    simp only [List.map_cons]
    unfold specCitationKey orFirstAuthor
    rw [hr]
    rcases h3 with h3 | h3
    · rw [h3]
      simp [pySplit, pySplitAux, pyLower, removeAllCh]
    · have hne : ¬ r.title = [] := by
        intro hx
        rw [hx] at h3
        exact h3 rfl
      rw [if_neg hne, pySplit_lower]
      cases ht : pySplit r.title with
      | nil => exact absurd ht h3
      | cons w ws => simp

/-- The arXiv reference of the spec's worked example: first author
"Jane Q. Smith", year "2023", title "Deep: Learning Things". -/
def refC3 : Arxiv.Reference :=
  { url := [], id := lit "x", authors := [some (lit "Jane Q. Smith")],
    title := lit "Deep: Learning Things", summary := [], category := [],
    year := lit "2023", month := [], pub_date := [], updated := [],
    bare_id := [], note := [], doi := [] }

/-- The same example as an OpenReview reference with no publication
timestamp. -/
def orRefC3 : Openreview.Reference :=
  { id := lit "x", title := lit "Deep: Learning Things",
    authors := [lit "Jane Q. Smith"], summary := [], pdf_url := [],
    url := [], pdate := none, venueid := [] }

/-- Witness for C3: the arXiv example key is `smith2023deep`; the
OpenReview example, with no timestamp, gives `smithYYYYdeep`. -/
theorem claim_C3_witness :
    Arxiv.citation_key refC3 = Except.ok (lit "smith2023deep") ∧
    Openreview.citation_key (fun _ => lit "1970") orRefC3 =
      Except.ok (lit "smithYYYYdeep") := by
  constructor
  · have h := claim_C3.1 refC3 (by decide) (by decide)
    rw [h]
    rfl
  · have h := claim_C3.2 (fun _ => lit "1970") orRefC3 (by decide) (by decide)
      (by decide)
    rw [h]
    rfl

end ObsUtils

namespace ObsUtils

/-- Words produced by `split()` contain no whitespace. -/
theorem pySplitAux_no_space (s : Str) :
    ∀ acc : Str, (∀ c ∈ acc, isSpaceCh c = false) →
      ∀ w ∈ pySplitAux acc s, ∀ c ∈ w, isSpaceCh c = false := by
  induction s with
  | nil =>
    intro acc hacc w hw c hc
    cases acc with
    | nil => simp [pySplitAux] at hw
    | cons a as =>
      simp [pySplitAux] at hw
      subst hw
      exact hacc c (by
        rcases List.mem_append.mp hc with h | h
        · exact List.mem_cons_of_mem _ (List.mem_reverse.mp h)
        · simp at h
          simp [h])
  | cons x t ih =>
    intro acc hacc w hw c hc
    by_cases hx : isSpaceCh x = true
    · cases acc with
      | nil =>
        simp [pySplitAux, hx] at hw
        exact ih [] (by simp) w hw c hc
      | cons a as =>
        simp [pySplitAux, hx] at hw
        rcases hw with hw | hw
        · subst hw
          exact hacc c (by
            rcases List.mem_append.mp hc with h | h
            · exact List.mem_cons_of_mem _ (List.mem_reverse.mp h)
            · simp at h
              simp [h])
        · exact ih [] (by simp) w hw c hc
    · have hx' : isSpaceCh x = false := by simpa using hx
      simp [pySplitAux, hx'] at hw
      refine ih (x :: acc) ?_ w hw c hc
      intro e he
      rcases List.mem_cons.mp he with rfl | he
      · exact hx'
      · exact hacc e he

/-- A character of a `join` comes from the separator or from a piece. -/
theorem mem_joinSep (sep : Str) (c : Char) :
    ∀ ws : List Str, c ∈ joinSep sep ws → c ∈ sep ∨ ∃ w ∈ ws, c ∈ w := by
  intro ws
  induction ws with
  | nil =>
    intro hc
    simp [joinSep] at hc
  | cons w ws ih =>
    intro hc
    cases ws with
    | nil =>
      right
      exact ⟨w, by simp, by simpa [joinSep] using hc⟩
    | cons w2 ws2 =>
      simp only [joinSep] at hc
      rcases List.mem_append.mp hc with h | h
      · rcases List.mem_append.mp h with h | h
        · right; exact ⟨w, by simp, h⟩
        · left; exact h
      · rcases ih h with h | ⟨w', hw', hc'⟩
        · left; exact h
        · right; exact ⟨w', by simp [hw'], hc'⟩

/-- Collapsing whitespace leaves no whitespace other than plain spaces; in
particular no newline survives. -/
theorem not_mem_collapseWS (c : Char) (hc : isSpaceCh c = true)
    (hne : c ≠ ' ') (s : Str) : c ∉ collapseWS s := by
  intro h
  rcases mem_joinSep [' '] c (pySplit s) h with h' | ⟨w, hw, hcw⟩
  · exact hne (by simpa using h')
  · have hns := pySplitAux_no_space s [] (by simp) w hw c hcw
    rw [hc] at hns
    simp at hns

/-- A rendered title or abstract field contains no newline. -/
theorem newline_not_mem_processField (s : Str) : '\n' ∉ processField s := by
  intro h
  have hnc := not_mem_collapseWS '\n' (by decide) (by decide) s
  simp only [processField, removeAllCh] at h
  split at h
  · rcases List.mem_cons.mp h with h | h
    · exact absurd h (by decide)
    · rcases List.mem_append.mp h with h | h
      · exact hnc (List.mem_of_mem_filter h)
      · simp at h
  · exact hnc h

/-- Splitting a separator-free string is the identity. -/
theorem splitCh_not_mem (c : Char) :
    ∀ a : Str, c ∉ a → splitCh c a = [a] := by
  intro a
  induction a with
  | nil => intro _; rfl
  | cons x t ih =>
    intro h
    have hx : x ≠ c := fun hxc => h (by simp [hxc])
    have ht : c ∉ t := fun hct => h (by simp [hct])
    simp [splitCh, hx, ih ht]

/-- Splitting off one separator-free line. -/
theorem splitCh_line (c : Char) (b : Str) :
    ∀ a : Str, c ∉ a → splitCh c (a ++ c :: b) = a :: splitCh c b := by
  intro a
  induction a with
  | nil =>
    intro _
    simp [splitCh]
  | cons x t ih =>
    intro h
    have hx : x ≠ c := fun hxc => h (by simp [hxc])
    have ht : c ∉ t := fun hct => h (by simp [hct])
    simp [splitCh, hx, ih ht]

/-- Splitting a newline-joined list peels off a newline-free first line. -/
theorem splitNL_cons (l : Str) (L : List Str) (hl : '\n' ∉ l)
    (hL : L ≠ []) :
    splitCh '\n' (joinNL (l :: L)) = l :: splitCh '\n' (joinNL L) := by
  cases L with
  | nil => exact absurd rfl hL
  | cons m ms => exact splitCh_line '\n' (joinNL (m :: ms)) l hl

end ObsUtils

namespace ObsUtils

/-- `digitCh` never produces a newline. -/
theorem digitCh_ne_nl (n : Nat) : Arxiv.digitCh n ≠ '\n' := by
  unfold Arxiv.digitCh
  split <;> decide

/-- A zero-padded two-digit number contains no newline. -/
theorem pad2_no_newline (n : Nat) : '\n' ∉ Arxiv.pad2 n := by
  intro h
  simp [Arxiv.pad2] at h
  rcases h with h | h <;> exact digitCh_ne_nl _ h.symm

/-- A rendered year contains no newline. -/
theorem yearStr_no_newline (y : Nat) : '\n' ∉ Arxiv.yearStr y := by
  intro h
  have hd : ∀ n, ¬ ('\n' = Arxiv.digitCh n) := fun n hx => digitCh_ne_nl n hx.symm
  by_cases h1 : y < 10 <;> by_cases h2 : y < 100 <;> by_cases h3 : y < 1000 <;>
    simp [Arxiv.yearStr, h1, h2, h3, hd] at h

/-- A `strftime("%Y-%m-%d")` output contains no newline. -/
theorem fmtYmd_no_newline (y mo dy : Nat) : '\n' ∉ Arxiv.fmtYmd y mo dy := by
  intro h
  unfold Arxiv.fmtYmd at h
  rcases List.mem_append.mp h with h | h
  · rcases List.mem_append.mp h with h | h
    · exact yearStr_no_newline y h
    · rcases List.mem_cons.mp h with h | h
      · exact absurd h (by decide)
      · exact pad2_no_newline mo h
  · rcases List.mem_cons.mp h with h | h
    · exact absurd h (by decide)
    · exact pad2_no_newline dy h

/-- A successfully converted `date_published` contains no newline. -/
theorem strptime_no_newline (s dp : Str)
    (h : Arxiv.strptimeIsoZ s = some dp) : '\n' ∉ dp := by
  unfold Arxiv.strptimeIsoZ at h
  repeat' split at h
  all_goals try exact Option.noConfusion h
  all_goals injection h with h
  all_goals rw [← h]
  all_goals exact fmtYmd_no_newline _ _ _

end ObsUtils

namespace ObsUtils

/-- A record whose title contains both a colon and a double quote. -/
def m0 : Openreview.ORDict :=
  { key := lit "k", author := lit "A B", title := lit "a: \"b\"",
    eprint := lit "e", url := lit "http://u", summary := lit "s",
    pubdate := lit "2024-01-01", venue := lit "V" }

/-- A record whose author string smuggles in a `url:` line. -/
def mNlAuthor : Openreview.ORDict :=
  { key := lit "k", author := lit "A\nurl: fake", title := lit "T",
    eprint := lit "e", url := lit "http://u", summary := lit "s",
    pubdate := lit "2024-01-01", venue := lit "V" }

/-- A record whose publication date smuggles in a `url:` line. -/
def mNlPub : Openreview.ORDict :=
  { key := lit "k", author := lit "A B", title := lit "T",
    eprint := lit "e", url := lit "http://u", summary := lit "s",
    pubdate := lit "p\nurl: fake2", venue := lit "V" }

/-- A benign record, paired below with a date-added string that smuggles in
a `url:` line. -/
def mClean : Openreview.ORDict :=
  { key := lit "k", author := lit "A B", title := lit "T",
    eprint := lit "e", url := lit "http://u", summary := lit "s",
    pubdate := lit "2024-01-01", venue := lit "V" }

/-- A record whose url itself contains a newline. -/
def mNlUrl : Openreview.ORDict :=
  { key := lit "k", author := lit "A B", title := lit "T",
    eprint := lit "e", url := lit "u\nv", summary := lit "s",
    pubdate := lit "2024-01-01", venue := lit "V" }

/-- An arXiv record whose pubdate is the empty string but which satisfies
every other condition (no colon in the title, no newlines anywhere). -/
def mBadDate : Arxiv.RefDict :=
  { key := lit "k", author := lit "A B", title := lit "T",
    eprint := lit "2310.01234", archivePrefixVal := lit "arXiv",
    primaryClass := lit "cs.LG", year := lit "2023", month := lit "10",
    pubdate := [], doi := [], url := lit "http://u", note := [],
    summary := lit "s" }

/-- C6 counterexample, one concrete record per failure mode of the claim:
(1)-(3) a title containing a colon is re-parsed in its quoted,
quote-stripped form, not as the whitespace-normalized original; (4)-(11) a
newline inside the author string, the publication date, the date-added
string, or the url makes the `url:` re-parse return something other than
the record's url; (12) the arXiv renderer raises `ValueError` in `strptime`
on a record with empty pubdate that satisfies every other condition, so
nothing is rendered at all. -/
theorem claim_C6_counterexample :
    collapseWS (lit "a: \"b\"") = lit "a: \"b\"" ∧
    parseField (lit "title")
      (Openreview.generate_markdown_file m0 (lit "2024-01-02 (Tue)")) =
        some (lit "\"a: b\"") ∧
    (lit "\"a: b\"" : Str) ≠ lit "a: \"b\"" ∧
    parseField (lit "url")
      (Openreview.generate_markdown_file mNlAuthor (lit "2024-01-02 (Tue)")) =
        some (lit "fake") ∧
    (lit "fake" : Str) ≠ mNlAuthor.url ∧
    parseField (lit "url")
      (Openreview.generate_markdown_file mNlPub (lit "2024-01-02 (Tue)")) =
        some (lit "fake2") ∧
    (lit "fake2" : Str) ≠ mNlPub.url ∧
    parseField (lit "url")
      (Openreview.generate_markdown_file mClean (lit "x\nurl: fake3")) =
        some (lit "fake3") ∧
    (lit "fake3" : Str) ≠ mClean.url ∧
    parseField (lit "url")
      (Openreview.generate_markdown_file mNlUrl (lit "2024-01-02 (Tue)")) =
        some (lit "u") ∧
    (lit "u" : Str) ≠ mNlUrl.url ∧
    Arxiv.generate_markdown_file mBadDate (lit "2024-01-02 (Tue)") =
      Except.error (lit "ValueError") := by
  exact ⟨by decide, by decide, by decide, by decide, by decide, by decide,
    by decide, by decide, by decide, by decide, by decide, by rfl⟩

/-- C6 (amended): for every metadata record fed into either Note Renderer
whose whitespace-normalized title contains no colon, and whose author
string, date-added string and url contain no newline — and, for the
OpenReview renderer, whose pass-through publication date contains no
newline; for the arXiv renderer, whose pubdate is a well-formed
`%Y-%m-%dT%H:%M:%SZ` timestamp (otherwise `strptime` raises and nothing is
rendered) — re-parsing the rendered front matter for its `title:` and
`url:` lines yields back the original whitespace-normalized title and the
exact url.  Each hypothesis is forced by one conjunct of the
counterexample. -/
theorem claim_C6 :
    (∀ (m : Openreview.ORDict) (d : Str),
      containsCh ':' (collapseWS m.title) = false →
      '\n' ∉ m.author → '\n' ∉ m.pubdate → '\n' ∉ d → '\n' ∉ m.url →
      parseField (lit "title") (Openreview.generate_markdown_file m d) =
          some (collapseWS m.title) ∧
      parseField (lit "url") (Openreview.generate_markdown_file m d) =
          some m.url) ∧
    (∀ (m : Arxiv.RefDict) (d dp : Str),
      containsCh ':' (collapseWS m.title) = false →
      '\n' ∉ m.author → '\n' ∉ d → '\n' ∉ m.url →
      Arxiv.strptimeIsoZ m.pubdate = some dp →
      Arxiv.generate_markdown_file m d =
          Except.ok (joinNL (Arxiv.renderLines m dp d)) ∧
      parseField (lit "title") (joinNL (Arxiv.renderLines m dp d)) =
          some (collapseWS m.title) ∧
      parseField (lit "url") (joinNL (Arxiv.renderLines m dp d)) =
          some m.url) := by
  have nA : ∀ p x : Str, '\n' ∉ p → '\n' ∉ x → '\n' ∉ p ++ x := by
    intro p x h1 h2 hm
    rcases List.mem_append.mp hm with h | h
    · exact h1 h
    · exact h2 h
  constructor
  · intro m d ht ha hp hd hu
    have hpt : processField m.title = collapseWS m.title := by
      simp only [processField]
      rw [ht]
      simp
    have h2 : '\n' ∉ lit "title: " ++ collapseWS m.title :=
      nA _ _ (by decide) (not_mem_collapseWS '\n' (by decide) (by decide) m.title)
    have h3 : '\n' ∉ lit "authors: " ++ m.author := nA _ _ (by decide) ha
    have h4 : '\n' ∉ lit "tldr: " ++ processField m.summary :=
      nA _ _ (by decide) (newline_not_mem_processField m.summary)
    have h6 : '\n' ∉ lit "date_published: " ++ m.pubdate := nA _ _ (by decide) hp
    have h8 : '\n' ∉ lit "date_added: " ++ d := nA _ _ (by decide) hd
    have h9 : '\n' ∉ lit "url: " ++ m.url := nA _ _ (by decide) hu
    have hsplit : splitCh '\n' (Openreview.generate_markdown_file m d) =
        lit "---" ::
        (lit "title: " ++ collapseWS m.title) ::
        (lit "authors: " ++ m.author) ::
        (lit "tldr: " ++ processField m.summary) ::
        lit "venue: OpenReview" ::
        (lit "date_published: " ++ m.pubdate) ::
        lit "rating: 0/5" ::
        (lit "date_added: " ++ d) ::
        (lit "url: " ++ m.url) ::
        splitCh '\n' (joinNL [lit "links: ", lit "tags:", lit "---",
          lit "> [!notes] Notes",
          lit "> Summary, Quotes, Thoughts, Questions, etc.", lit "",
          lit "---", lit "# PDF", lit "",
          lit "![[" ++ m.key ++ lit ".pdf]]"]) := by
      show splitCh '\n' (joinNL (lit "---" ::
        (lit "title: " ++ processField m.title) ::
        (lit "authors: " ++ m.author) ::
        (lit "tldr: " ++ processField m.summary) ::
        lit "venue: OpenReview" ::
        (lit "date_published: " ++ m.pubdate) ::
        lit "rating: 0/5" ::
        (lit "date_added: " ++ d) ::
        (lit "url: " ++ m.url) ::
        [lit "links: ", lit "tags:", lit "---",
          lit "> [!notes] Notes",
          lit "> Summary, Quotes, Thoughts, Questions, etc.", lit "",
          lit "---", lit "# PDF", lit "",
          lit "![[" ++ m.key ++ lit ".pdf]]"])) = _
      rw [hpt]
      rw [splitNL_cons _ _ (by decide) (by simp),
          splitNL_cons _ _ h2 (by simp),
          splitNL_cons _ _ h3 (by simp),
          splitNL_cons _ _ h4 (by simp),
          splitNL_cons _ _ (by decide) (by simp),
          splitNL_cons _ _ h6 (by simp),
          splitNL_cons _ _ (by decide) (by simp),
          splitNL_cons _ _ h8 (by simp),
          splitNL_cons _ _ h9 (by simp)]
    constructor
    · simp only [parseField]
      rw [hsplit]
      rfl
    · simp only [parseField]
      rw [hsplit]
      rfl
  · intro m d dp ht ha hd hu hdp
    have hok : Arxiv.generate_markdown_file m d =
        Except.ok (joinNL (Arxiv.renderLines m dp d)) := by
      unfold Arxiv.generate_markdown_file
      rw [hdp]
    have hpt : processField m.title = collapseWS m.title := by
      simp only [processField]
      rw [ht]
      simp
    have h2 : '\n' ∉ lit "title: " ++ collapseWS m.title :=
      nA _ _ (by decide) (not_mem_collapseWS '\n' (by decide) (by decide) m.title)
    have h3 : '\n' ∉ lit "authors: " ++ m.author := nA _ _ (by decide) ha
    have h4 : '\n' ∉ lit "tldr: " ++ processField m.summary :=
      nA _ _ (by decide) (newline_not_mem_processField m.summary)
    have h6 : '\n' ∉ lit "date_published: " ++ dp :=
      nA _ _ (by decide) (strptime_no_newline m.pubdate dp hdp)
    have h8 : '\n' ∉ lit "date_added: " ++ d := nA _ _ (by decide) hd
    have h9 : '\n' ∉ lit "url: " ++ m.url := nA _ _ (by decide) hu
    have hsplit : splitCh '\n' (joinNL (Arxiv.renderLines m dp d)) =
        lit "---" ::
        (lit "title: " ++ collapseWS m.title) ::
        (lit "authors: " ++ m.author) ::
        (lit "tldr: " ++ processField m.summary) ::
        lit "venue: arXiv" ::
        (lit "date_published: " ++ dp) ::
        lit "rating: 0/5" ::
        (lit "date_added: " ++ d) ::
        (lit "url: " ++ m.url) ::
        splitCh '\n' (joinNL [lit "links: ", lit "tags:", lit "---",
          lit "> [!notes] Notes",
          lit "> Summary, Quotes, Thoughts, Questions, etc.", lit "",
          lit "---", lit "# PDF", lit "",
          lit "![[" ++ m.key ++ lit ".pdf]]"]) := by
      show splitCh '\n' (joinNL (lit "---" ::
        (lit "title: " ++ processField m.title) ::
        (lit "authors: " ++ m.author) ::
        (lit "tldr: " ++ processField m.summary) ::
        lit "venue: arXiv" ::
        (lit "date_published: " ++ dp) ::
        lit "rating: 0/5" ::
        (lit "date_added: " ++ d) ::
        (lit "url: " ++ m.url) ::
        [lit "links: ", lit "tags:", lit "---",
          lit "> [!notes] Notes",
          lit "> Summary, Quotes, Thoughts, Questions, etc.", lit "",
          lit "---", lit "# PDF", lit "",
          lit "![[" ++ m.key ++ lit ".pdf]]"])) = _
      rw [hpt]
      rw [splitNL_cons _ _ (by decide) (by simp),
          splitNL_cons _ _ h2 (by simp),
          splitNL_cons _ _ h3 (by simp),
          splitNL_cons _ _ h4 (by simp),
          splitNL_cons _ _ (by decide) (by simp),
          splitNL_cons _ _ h6 (by simp),
          splitNL_cons _ _ (by decide) (by simp),
          splitNL_cons _ _ h8 (by simp),
          splitNL_cons _ _ h9 (by simp)]
    refine ⟨hok, ?_, ?_⟩
    · simp only [parseField]
      rw [hsplit]
      rfl
    · simp only [parseField]
      rw [hsplit]
      rfl

/-- A well-behaved OpenReview record: no colon in the title, no newlines in
the fields re-parsed or preceding them. -/
def m1 : Openreview.ORDict :=
  { key := lit "k", author := lit "Ann Smith and Bob Jones",
    title := lit "A  Great\tPaper", eprint := lit "e",
    url := lit "https://openreview.net/forum?id=abc",
    summary := lit "Sum: mary", pubdate := lit "2024-05-05",
    venue := lit "V" }

/-- A well-behaved arXiv record with a well-formed pubdate. -/
def mArx : Arxiv.RefDict :=
  { key := lit "k", author := lit "Ann Smith", title := lit "A Title",
    eprint := lit "2310.01234", archivePrefixVal := lit "arXiv",
    primaryClass := lit "cs.LG", year := lit "2023", month := lit "10",
    pubdate := lit "2023-10-02T00:00:00Z", doi := [],
    url := lit "http://arxiv.org/abs/2310.01234", note := [],
    summary := lit "An abstract." }

/-- Witness for C6 at concrete records of both sources (the OpenReview
summary does contain a colon; only the title must be colon-free). -/
theorem claim_C6_witness :
    (parseField (lit "title")
      (Openreview.generate_markdown_file m1 (lit "2024-06-01 (Sat)")) =
        some (collapseWS m1.title) ∧
     parseField (lit "url")
      (Openreview.generate_markdown_file m1 (lit "2024-06-01 (Sat)")) =
        some m1.url) ∧
    (Arxiv.generate_markdown_file mArx (lit "2024-06-01 (Sat)") =
        Except.ok (joinNL (Arxiv.renderLines mArx (lit "2023-10-02")
          (lit "2024-06-01 (Sat)"))) ∧
     parseField (lit "title")
      (joinNL (Arxiv.renderLines mArx (lit "2023-10-02")
        (lit "2024-06-01 (Sat)"))) = some (collapseWS mArx.title) ∧
     parseField (lit "url")
      (joinNL (Arxiv.renderLines mArx (lit "2023-10-02")
        (lit "2024-06-01 (Sat)"))) = some mArx.url) :=
  ⟨claim_C6.1 m1 (lit "2024-06-01 (Sat)") (by decide) (by decide) (by decide)
      (by decide) (by decide),
   claim_C6.2 mArx (lit "2024-06-01 (Sat)") (lit "2023-10-02") (by decide)
      (by decide) (by decide) (by decide) (by decide)⟩

end ObsUtils
